import Mathlib

/-!
Shallow embedding of the LaTeX table auditor (`src/auditor.py`).

Strings are modelled as lists of characters.  The regex-driven scans of the
source (`TABULAR_BEGIN_RE`, `TABULAR_TOKEN_RE`, the substitution removing
directives of shape at-sign-brace-payload-brace) are modelled by explicit
character scans.  Scanning functions that advance by a variable amount carry a
fuel argument; every caller passes the length of the scanned list, which bounds
the number of iterations since every iteration consumes at least one character,
and on the empty list the fuel-exhausted result coincides with the scan result.
-/

namespace Auditor

/-- Left curly brace character, written by code to avoid brace escapes. -/
def lbrace : Char := '\x7b'

/-- Right curly brace character. -/
def rbrace : Char := '\x7d'

/-- The begin-marker literal of both regexes: a backslash, then begin, then
the word tabular in braces. -/
def beginLit : List Char :=
  ['\\', 'b', 'e', 'g', 'i', 'n', '\x7b', 't', 'a', 'b', 'u', 'l', 'a', 'r', '\x7d']

/-- The end-marker literal of the token regex. -/
def endLit : List Char :=
  ['\\', 'e', 'n', 'd', '\x7b', 't', 'a', 'b', 'u', 'l', 'a', 'r', '\x7d']

/-- The brace-less begin fragment tested inside row scanning. -/
def beginFrag : List Char :=
  ['\\', 'b', 'e', 'g', 'i', 'n', '\x7b', 't', 'a', 'b', 'u', 'l', 'a', 'r']

/-- The brace-less end fragment tested inside row scanning. -/
def endFrag : List Char :=
  ['\\', 'e', 'n', 'd', '\x7b', 't', 'a', 'b', 'u', 'l', 'a', 'r']

/-- Marker for captions. -/
def capTok : List Char := ['\\', 'c', 'a', 'p', 't', 'i', 'o', 'n']

/-- Marker for labels. -/
def labelTok : List Char := ['\\', 'l', 'a', 'b', 'e', 'l']

/-- Marker for centering. -/
def centeringTok : List Char := ['\\', 'c', 'e', 'n', 't', 'e', 'r', 'i', 'n', 'g']

/-- Top rule keyword with its backslash. -/
def topruleTok : List Char := ['\\', 't', 'o', 'p', 'r', 'u', 'l', 'e']

/-- Mid rule keyword with its backslash. -/
def midruleTok : List Char := ['\\', 'm', 'i', 'd', 'r', 'u', 'l', 'e']

/-- Bottom rule keyword with its backslash. -/
def bottomruleTok : List Char := ['\\', 'b', 'o', 't', 't', 'o', 'm', 'r', 'u', 'l', 'e']

/-- Bold marker. -/
def textbfTok : List Char := ['\\', 't', 'e', 'x', 't', 'b', 'f']

/-- Bare top rule keyword (tested without backslash in row scanning). -/
def topruleBare : List Char := ['t', 'o', 'p', 'r', 'u', 'l', 'e']

/-- Bare mid rule keyword. -/
def midruleBare : List Char := ['m', 'i', 'd', 'r', 'u', 'l', 'e']

/-- Bare bottom rule keyword. -/
def bottomruleBare : List Char := ['b', 'o', 't', 't', 'o', 'm', 'r', 'u', 'l', 'e']

/-- Substring containment, mirroring the Python `in` operator on strings:
true iff `pat` occurs contiguously inside `s` (the empty pattern occurs in
every string). -/
def listContains : List Char → List Char → Bool
  | s@(_ :: t), pat => pat.isPrefixOf s || listContains t pat
  | [], pat => pat.isEmpty

/-- Python whitespace predicate (the character class stripped by `str.strip`
with no argument). -/
def isPySpace (c : Char) : Bool :=
  (0x09 ≤ c.toNat && c.toNat ≤ 0x0D) || c = ' ' ||
  (0x1C ≤ c.toNat && c.toNat ≤ 0x1F) || c.toNat = 0x85 || c.toNat = 0xA0 ||
  c.toNat = 0x1680 || (0x2000 ≤ c.toNat && c.toNat ≤ 0x200A) ||
  c.toNat = 0x2028 || c.toNat = 0x2029 || c.toNat = 0x202F ||
  c.toNat = 0x205F || c.toNat = 0x3000

/-- Python `str.strip()`: drop whitespace from both ends. -/
def pyStrip (l : List Char) : List Char :=
  ((l.dropWhile isPySpace).reverse.dropWhile isPySpace).reverse

/-- Line boundary characters of Python `str.splitlines` (carriage return
followed by line feed is additionally treated as a single boundary). -/
def isLineBoundary (c : Char) : Bool :=
  c = '\n' || c = '\r' || c = '\x0b' || c = '\x0c' ||
  c.toNat = 0x1C || c.toNat = 0x1D || c.toNat = 0x1E || c.toNat = 0x85 ||
  c.toNat = 0x2028 || c.toNat = 0x2029

/-- Worker for `pySplitlines`; `acc` holds the current line reversed.  A
carriage return directly followed by a line feed is one boundary; any other
boundary character ends a line by itself; no trailing empty line is produced
when the text ends in a boundary. -/
def splitlinesAux : List Char → List Char → List (List Char)
  | acc, [] => if acc.isEmpty then [] else [acc.reverse]
  | acc, [c] =>
      if isLineBoundary c then acc.reverse :: splitlinesAux [] []
      else splitlinesAux (c :: acc) []
  | acc, c :: c2 :: rest =>
      if c = '\r' && c2 = '\n' then acc.reverse :: splitlinesAux [] rest
      else if isLineBoundary c then acc.reverse :: splitlinesAux [] (c2 :: rest)
      else splitlinesAux (c :: acc) (c2 :: rest)

/-- Python `str.splitlines()`: split at line boundaries, with no trailing
empty line when the text ends in a boundary. -/
def pySplitlines (s : List Char) : List (List Char) :=
  splitlinesAux [] s

/-- Python `row.replace` of a backslash-ampersand pair by the empty string:
delete every (non-overlapping, leftmost-first) escaped separator. -/
def removeEscAmp : List Char → List Char
  | '\\' :: '&' :: rest => removeEscAmp rest
  | c :: rest => c :: removeEscAmp rest
  | [] => []

/-- Worker for `pySplitDoubleBackslash`; `acc` holds the current segment
reversed.  Mirrors Python `str.split` on the two-character row terminator:
non-overlapping, leftmost-first, empty segments kept. -/
def splitDBSAux : List Char → List Char → List (List Char)
  | acc, '\\' :: '\\' :: rest => acc.reverse :: splitDBSAux [] rest
  | acc, c :: rest => splitDBSAux (c :: acc) rest
  | acc, [] => [acc.reverse]

/-- Python `body.split` on the double-backslash row terminator. -/
def pySplitDoubleBackslash (s : List Char) : List (List Char) :=
  splitDBSAux [] s

/-- Python `str.startswith` for a one-character pattern. -/
def startsWithChar (l : List Char) (c : Char) : Bool :=
  match l with
  | [] => false
  | x :: _ => x = c

/-- The `TabularBlock` dataclass of the source: raw column spec and body. -/
structure TabularBlock where
  column_spec : List Char
  body : List Char
deriving DecidableEq

/-- Skip to just after the first right bracket, as the greedy bracket group
of the begin regex does; `none` when no right bracket exists. -/
def afterFirstRBracket : List Char → Option (List Char)
  | [] => none
  | c :: rest => if c = ']' then some rest else afterFirstRBracket rest

/-- Capture up to the first right brace: returns the characters before it and
the remainder after it, or `none` when no right brace exists. -/
def takeToRBrace : List Char → Option (List Char × List Char)
  | [] => none
  | c :: rest =>
      if c = rbrace then some ([], rest)
      else
        match takeToRBrace rest with
        | some (cap, rem) => some (c :: cap, rem)
        | none => none

/-- Parse what the begin regex requires after its literal: an optional
bracketed placement argument, then a braced column spec.  Returns the captured
spec and the remainder after the closing brace.  When the bracket group cannot
complete, the regex backtracks to leaving it unmatched, which then demands an
immediate left brace; a leading left bracket makes that fallback fail too. -/
def parseBeginSuffix : List Char → Option (List Char × List Char)
  | [] => none
  | c :: rest =>
      if c = '[' then
        match afterFirstRBracket rest with
        | some rem =>
            match rem with
            | c2 :: rest2 => if c2 = lbrace then takeToRBrace rest2 else none
            | [] => none
        | none => none
      else if c = lbrace then takeToRBrace rest
      else none

/-- Search of the begin regex: try every start offset left to right; at a
start where the begin literal matches, complete the match with
`parseBeginSuffix`, else move one character right.  Returns match start,
captured column spec, and match end offset. -/
def searchTabularBeginAux : Nat → List Char → Nat → Option (Nat × List Char × Nat)
  | 0, _, _ => none
  | fuel + 1, l, pos =>
      match
        (if beginLit.isPrefixOf l then
          match parseBeginSuffix (l.drop beginLit.length) with
          | some (cap, rem) => some (pos, cap, pos + (l.length - rem.length))
          | none => none
        else none) with
      | some r => some r
      | none =>
          match l with
          | [] => none
          | _ :: t => searchTabularBeginAux fuel t (pos + 1)

/-- Depth-counting scan over the token regex matches (non-overlapping, found
left to right): depth rises at a begin marker, falls at an end marker, and the
start offset of the end marker that brings depth to zero is returned. -/
def tokenScanAux : Nat → List Char → Nat → Int → Option Nat
  | 0, _, _, _ => none
  | fuel + 1, l, pos, depth =>
      if beginLit.isPrefixOf l then
        tokenScanAux fuel (l.drop beginLit.length) (pos + beginLit.length) (depth + 1)
      else if endLit.isPrefixOf l then
        (if depth - 1 = 0 then some pos
         else tokenScanAux fuel (l.drop endLit.length) (pos + endLit.length) (depth - 1))
      else
        match l with
        | [] => none
        | _ :: t => tokenScanAux fuel t (pos + 1) depth

/-- The `_extract_outer_tabular` function: find the first begin marker with a
column-spec argument, then depth-scan for the matching end marker; the body is
the slice strictly between match end and the closing marker's start. -/
def extract_outer_tabular (s : List Char) : Option TabularBlock :=
  match searchTabularBeginAux s.length s 0 with
  | none => none
  | some (_mstart, spec, mend) =>
      match tokenScanAux (s.length - _mstart) (s.drop _mstart) _mstart 0 with
      | none => none
      | some endIdx => some ⟨spec, (s.drop mend).take (endIdx - mend)⟩

/-- Skip to just after the first right brace (payload of an at-directive). -/
def afterFirstRBrace : List Char → Option (List Char)
  | [] => none
  | c :: rest => if c = rbrace then some rest else afterFirstRBrace rest

/-- The substitution deleting at-directives: at an at-sign followed by a left
brace whose payload is closed by a right brace, delete through that brace and
continue after it; otherwise keep the character.  When no right brace follows,
no later match is possible either (any match needs a right brace), so the rest
is kept as is. -/
def removeAtDirectivesAux : Nat → List Char → List Char
  | 0, l => l
  | fuel + 1, c :: rest =>
      if c = '@' then
        match rest with
        | c2 :: rest2 =>
            if c2 = lbrace then
              match afterFirstRBrace rest2 with
              | some after => removeAtDirectivesAux fuel after
              | none => c :: c2 :: rest2
            else c :: removeAtDirectivesAux fuel rest
        | [] => [c]
      else c :: removeAtDirectivesAux fuel rest
  | _ + 1, [] => []

/-- Column-type letters counted by the spec regex, both cases (the regex is
case-insensitive; long s folds to s under its full case folding). -/
def colTokenChars : List Char :=
  ['l', 'c', 'r', 'p', 'm', 'b', 'X', 'S',
   'L', 'C', 'R', 'P', 'M', 'B', 'x', 's', '\u017F']

/-- The `_count_columns_from_spec` function: delete at-directives, delete
vertical bars, count column-type letters; zero letters yield `none`. -/
def count_columns_from_spec (column_spec : List Char) : Option Nat :=
  let cleaned :=
    (removeAtDirectivesAux column_spec.length column_spec).filter (fun c => !(c = '|'))
  let n := (cleaned.filter (fun c => colTokenChars.contains c)).length
  if n = 0 then none else some n

/-- Row-skip test of `_find_column_mismatches`: a stripped row is skipped when
it starts with a backslash, mentions a rule keyword, or mentions a nested
begin or end marker fragment. -/
def isSkipRow (row : List Char) : Bool :=
  startsWithChar row '\\' || listContains row topruleBare ||
  listContains row midruleBare || listContains row bottomruleBare ||
  listContains row beginFrag || listContains row endFrag

/-- The stripped, non-empty rows of a body, split at the row terminator. -/
def rowsOf (body : List Char) : List (List Char) :=
  ((pySplitDoubleBackslash body).map pyStrip).filter (fun r => !r.isEmpty)

/-- Worker over the row list, carrying the one-based data-row counter. -/
def findColumnMismatchesAux (expected : Nat) : List (List Char) → Nat → List Nat
  | [], _ => []
  | row :: rest, idx =>
      if isSkipRow row then findColumnMismatchesAux expected rest idx
      else
        let cols := (removeEscAmp row).count '&' + 1
        if cols = expected then findColumnMismatchesAux expected rest (idx + 1)
        else (idx + 1) :: findColumnMismatchesAux expected rest (idx + 1)

/-- The `_find_column_mismatches` function: one-based indices of data rows
whose cell count (unescaped separators plus one) differs from the expected
column count. -/
def find_column_mismatches (tabular_block : TabularBlock) (expected_cols : Nat) : List Nat :=
  findColumnMismatchesAux expected_cols (rowsOf tabular_block.body) 0

/-- The `_count_columns_in_line` function: `none` on no line or an empty
line; delete escaped separators; `none` when no separator remains, else the
separator count plus one. -/
def count_columns_in_line : Option (List Char) → Option Nat
  | none => none
  | some line =>
      if line.isEmpty then none
      else
        let sanitized := removeEscAmp line
        if sanitized.count '&' = 0 then none
        else some (sanitized.count '&' + 1)

/-- Fallback line selection of the audit: the first line of the text that
contains a separator character and whose stripped form does not start with the
comment marker. -/
def firstAmpLine (s : List Char) : Option (List Char) :=
  (pySplitlines s).find? (fun line => line.contains '&' && !(startsWithChar (pyStrip line) '%'))

/-- Python truthiness of an optional integer: false for `none` and for zero. -/
def optTruthy : Option Nat → Bool
  | none => false
  | some n => !(n = 0)

/-- Python `a or b` for an optional integer against an integer default. -/
def pyOr (a : Option Nat) (b : Nat) : Nat :=
  match a with
  | some n => if n = 0 then b else n
  | none => b

/-- Python `str` of a list of integers, as interpolated into the mismatch
issue text. -/
def pyListStr (l : List Nat) : String :=
  "[" ++ String.intercalate ", " (l.map (fun n => toString n)) ++ "]"

/-- The report dictionary returned by `audit_latex_table`, as a record. -/
structure Report where
  has_caption : Bool
  has_label : Bool
  has_centering : Bool
  uses_full_booktabs : Bool
  column_mismatch_rows : List Nat
  expected_columns : Option Nat
  needs_tabular_scaffold : Bool
  placeholder_headers : List String
  issues : List String
  suggestions : List String
deriving DecidableEq

/-- Caption presence flag. -/
def hasCaption (s : List Char) : Bool := listContains s capTok

/-- Label presence flag. -/
def hasLabel (s : List Char) : Bool := listContains s labelTok

/-- Centering presence flag. -/
def hasCentering (s : List Char) : Bool := listContains s centeringTok

/-- Top rule presence flag. -/
def usesToprule (s : List Char) : Bool := listContains s topruleTok

/-- Mid rule presence flag. -/
def usesMidrule (s : List Char) : Bool := listContains s midruleTok

/-- Bottom rule presence flag. -/
def usesBottomrule (s : List Char) : Bool := listContains s bottomruleTok

/-- Bold marker presence flag. -/
def hasTextbf (s : List Char) : Bool := listContains s textbfTok

/-- Conjunction of the three rule flags. -/
def booktabsFull (s : List Char) : Bool :=
  usesToprule s && usesMidrule s && usesBottomrule s

/-- Expected column count resolved from extraction: the spec count of the
extracted block, when a block exists. -/
def extractedColsOf (s : List Char) : Option Nat :=
  match extract_outer_tabular s with
  | some b => count_columns_from_spec b.column_spec
  | none => none

/-- The mismatch list of the audit: computed only when a block was extracted
and its spec count is truthy, else empty. -/
def columnMismatchRowsOf (s : List Char) : List Nat :=
  match extract_outer_tabular s with
  | none => []
  | some b =>
      match count_columns_from_spec b.column_spec with
      | none => []
      | some n => if n = 0 then [] else find_column_mismatches b n

/-- Scaffold flag: extraction failed. -/
def needsScaffoldOf (s : List Char) : Bool :=
  (extract_outer_tabular s).isNone

/-- The inferred column count: the extraction count when truthy, else the
count of the fallback line. -/
def inferredColsOf (s : List Char) : Option Nat :=
  if optTruthy (extractedColsOf s) then extractedColsOf s
  else count_columns_in_line (firstAmpLine s)

/-- The reported expected column count: the extraction count when truthy,
else the fallback count when that is not `none`, else the extraction count
unchanged. -/
def expectedColumnsOf (s : List Char) : Option Nat :=
  if optTruthy (extractedColsOf s) then extractedColsOf s
  else
    match count_columns_in_line (firstAmpLine s) with
    | some n => some n
    | none => extractedColsOf s

/-- The header count used for placeholders: expected count, else inferred
count, else three, under Python truthiness. -/
def colCountForHeadersOf (s : List Char) : Nat :=
  pyOr (expectedColumnsOf s) (pyOr (inferredColsOf s) 3)

/-- Placeholder headers: generic column names when the bold marker is absent,
else empty. -/
def placeholderHeadersOf (s : List Char) : List String :=
  if hasTextbf s then []
  else (List.range (max 1 (colCountForHeadersOf s))).map (fun i => "Column " ++ toString (i + 1))

/-- The issues list, in the order the audit performs its checks. -/
def issuesOf (s : List Char) : List String :=
  (if hasCaption s then [] else ["Caption missing."]) ++
  (if hasLabel s then [] else ["Label missing."]) ++
  (if hasCentering s then [] else ["Table is not centered."]) ++
  (if booktabsFull s then [] else ["Booktabs rules are incomplete."]) ++
  (match extract_outer_tabular s with
   | none => ["Tabular environment missing."]
   | some _ =>
      if (columnMismatchRowsOf s).isEmpty then []
      else ["Column count mismatch on data rows: " ++ pyListStr (columnMismatchRowsOf s) ++ "."]) ++
  (if hasTextbf s then [] else ["Header row missing or not emphasized."])

/-- The suggestions list, appended in lockstep with the issues. -/
def suggestionsOf (s : List Char) : List String :=
  (if hasCaption s then [] else ["Add a descriptive caption so readers understand the table."]) ++
  (if hasLabel s then [] else ["Add a label for cross-referencing."]) ++
  (if hasCentering s then [] else ["Include \\centering inside the table environment."]) ++
  (if booktabsFull s then [] else ["Use \\toprule, \\midrule, and \\bottomrule for consistent styling."]) ++
  (match extract_outer_tabular s with
   | none => ["Wrap the rows in \\begin\x7btabular\x7d\x7b...\x7d ... \\end\x7btabular\x7d with a proper column spec."]
   | some _ =>
      if (columnMismatchRowsOf s).isEmpty then []
      else ["Ensure each row has the same number of cells as the column spec."]) ++
  (if hasTextbf s then [] else ["Add a bold header row so each column has a descriptive name."])

/-- The audit over a character list: assemble the report. -/
def auditL (s : List Char) : Report :=
  { has_caption := hasCaption s
    has_label := hasLabel s
    has_centering := hasCentering s
    uses_full_booktabs := booktabsFull s
    column_mismatch_rows := columnMismatchRowsOf s
    expected_columns := expectedColumnsOf s
    needs_tabular_scaffold := needsScaffoldOf s
    placeholder_headers := placeholderHeadersOf s
    issues := issuesOf s
    suggestions := suggestionsOf s }

/-- The `audit_latex_table` function over a string. -/
def audit_latex_table (s : String) : Report :=
  auditL s.data

/-- No begin-marker literal occurrence starts at an offset strictly inside
`p` when `p` is followed by `r` (an occurrence at offset `p.length`, i.e. at
the start of `r`, is allowed). -/
def noBeginInside (p r : List Char) : Prop :=
  ∀ i, i < p.length → beginLit.isPrefixOf (p.drop i ++ r) = false

/-- No marker-literal occurrence (begin or end) starts at an offset strictly
inside `u` when `u` is followed by `r`. -/
def noTokenInside (u r : List Char) : Prop :=
  ∀ i, i < u.length →
    beginLit.isPrefixOf (u.drop i ++ r) = false ∧
    endLit.isPrefixOf (u.drop i ++ r) = false

instance instDecNoBeginInside (p r : List Char) : Decidable (noBeginInside p r) := by
  unfold noBeginInside
  infer_instance

instance instDecNoTokenInside (u r : List Char) : Decidable (noTokenInside u r) := by
  unfold noTokenInside
  infer_instance

/-! Helper lemmas shared by several claims. -/

/-- Mismatch analysis is skipped whenever the extracted spec count is not
truthy (absent, or zero). -/
lemma mismatchRows_empty_of_not_truthy (s : List Char)
    (h : optTruthy (extractedColsOf s) = false) : columnMismatchRowsOf s = [] := by
  unfold columnMismatchRowsOf
  cases hE : extract_outer_tabular s with
  | none => rfl
  | some b =>
    have hx : extractedColsOf s = count_columns_from_spec b.column_spec := by
      unfold extractedColsOf; rw [hE]
    cases hc : count_columns_from_spec b.column_spec with
    | none => simp [hc]
    | some n =>
      rw [hx, hc] at h
      unfold optTruthy at h
      simp at h
      simp [hc, h]

/-- Every element produced by the mismatch worker exceeds the entry counter. -/
lemma findColumnMismatchesAux_mem_gt (expected : Nat) :
    ∀ (rows : List (List Char)) (idx x : Nat),
      x ∈ findColumnMismatchesAux expected rows idx → idx < x := by
  intro rows
  induction rows with
  | nil => intro idx x hx; simp [findColumnMismatchesAux] at hx
  | cons row rest ih =>
    intro idx x hx
    unfold findColumnMismatchesAux at hx
    by_cases hs : isSkipRow row = true
    · rw [if_pos hs] at hx
      exact ih idx x hx
    · rw [if_neg hs] at hx
      simp only [] at hx
      by_cases hc : (removeEscAmp row).count '&' + 1 = expected
      · rw [if_pos hc] at hx
        have := ih (idx + 1) x hx
        omega
      · rw [if_neg hc] at hx
        rcases List.mem_cons.mp hx with h | h
        · omega
        · have := ih (idx + 1) x h
          omega

/-- The mismatch worker produces a strictly increasing list. -/
lemma findColumnMismatchesAux_sorted (expected : Nat) :
    ∀ (rows : List (List Char)) (idx : Nat),
      List.Sorted (· < ·) (findColumnMismatchesAux expected rows idx) := by
  intro rows
  induction rows with
  | nil => intro idx; simp [findColumnMismatchesAux]
  | cons row rest ih =>
    intro idx
    unfold findColumnMismatchesAux
    by_cases hs : isSkipRow row = true
    · rw [if_pos hs]; exact ih idx
    · rw [if_neg hs]
      simp only []
      by_cases hc : (removeEscAmp row).count '&' + 1 = expected
      · rw [if_pos hc]; exact ih (idx + 1)
      · rw [if_neg hc]
        refine List.sorted_cons.mpr ⟨fun b hb => ?_, ih (idx + 1)⟩
        exact findColumnMismatchesAux_mem_gt expected rest (idx + 1) b hb

/-- The begin search fails when the begin literal occurs nowhere in the
scanned text. -/
lemma searchTabularBeginAux_eq_none :
    ∀ (fuel : Nat) (l : List Char) (pos : Nat),
      listContains l beginLit = false → searchTabularBeginAux fuel l pos = none := by
  intro fuel
  induction fuel with
  | zero => intro l pos _; rfl
  | succ f ih =>
    intro l pos h
    cases l with
    | nil => rfl
    | cons c t =>
      simp only [listContains, Bool.or_eq_false_iff] at h
      simp [searchTabularBeginAux, h.1, ih t (pos + 1) h.2]

/-- Extraction fails when the begin literal occurs nowhere. -/
lemma extract_eq_none_of_no_begin (s : List Char) (h : listContains s beginLit = false) :
    extract_outer_tabular s = none := by
  unfold extract_outer_tabular
  rw [searchTabularBeginAux_eq_none s.length s 0 h]

/-- Lines produced by the line splitter draw their characters from the
accumulator and the remaining input. -/
lemma splitlinesAux_chars (a : Char) :
    ∀ (n : Nat) (acc l : List Char), l.length ≤ n → a ∉ acc → a ∉ l →
      ∀ line ∈ splitlinesAux acc l, a ∉ line := by
  intro n
  induction n with
  | zero =>
    intro acc l hn hacc hl line hline
    have hl0 : l = [] := List.eq_nil_of_length_eq_zero (Nat.le_zero.mp hn)
    subst hl0
    simp only [splitlinesAux] at hline
    by_cases he : acc.isEmpty
    · rw [if_pos he] at hline
      simp at hline
    · rw [if_neg he] at hline
      have := List.mem_singleton.mp hline
      subst this
      simpa using hacc
  | succ n ih =>
    intro acc l hn hacc hl line hline
    cases l with
    | nil =>
      simp only [splitlinesAux] at hline
      by_cases he : acc.isEmpty
      · rw [if_pos he] at hline
        simp at hline
      · rw [if_neg he] at hline
        have := List.mem_singleton.mp hline
        subst this
        simpa using hacc
    | cons c t =>
      cases t with
      | nil =>
        simp only [splitlinesAux] at hline
        by_cases hb : isLineBoundary c
        · rw [if_pos hb] at hline
          rcases List.mem_cons.mp hline with h | h
          · subst h
            simpa using hacc
          · exact ih [] [] (by simp) (by simp) (by simp) line h
        · rw [if_neg hb] at hline
          refine ih (c :: acc) [] (by simp) ?_ (by simp) line hline
          intro hx
          rcases List.mem_cons.mp hx with h | h
          · exact hl (by simp [h])
          · exact hacc h
      | cons c2 rest =>
        simp only [splitlinesAux] at hline
        by_cases hcr : (c = '\r' && c2 = '\n') = true
        · rw [if_pos hcr] at hline
          rcases List.mem_cons.mp hline with h | h
          · subst h
            simpa using hacc
          · refine ih [] rest (by simp at hn; omega) (by simp) ?_ line h
            intro hx
            exact hl (by simp [hx])
        · rw [if_neg hcr] at hline
          by_cases hb : isLineBoundary c
          · rw [if_pos hb] at hline
            rcases List.mem_cons.mp hline with h | h
            · subst h
              simpa using hacc
            · refine ih [] (c2 :: rest) (by simp at hn ⊢; omega) (by simp) ?_ line h
              intro hx
              exact hl (by simp [hx])
          · rw [if_neg hb] at hline
            refine ih (c :: acc) (c2 :: rest) (by simp at hn ⊢; omega) ?_ ?_ line hline
            · intro hx
              rcases List.mem_cons.mp hx with h | h
              · exact hl (by simp [h])
              · exact hacc h
            · intro hx
              exact hl (by simp [hx])

/-- The fallback line search fails when no separator character occurs. -/
lemma firstAmpLine_eq_none (s : List Char) (h : '&' ∉ s) : firstAmpLine s = none := by
  unfold firstAmpLine pySplitlines
  rw [List.find?_eq_none]
  intro line hline
  have hna : '&' ∉ line :=
    splitlinesAux_chars '&' s.length [] s (Nat.le_refl _) (by simp) h line hline
  simp [hna]

/-! Claim theorems. -/

/-- C2: the audit is a total function of the input string (by construction in
this embedding every definition is total), and on the empty string the report
has every presence flag false and an empty mismatch list. -/
theorem audit_total_and_empty_report :
    (∀ s : String, ∃ r : Report, audit_latex_table s = r) ∧
    (audit_latex_table "").has_caption = false ∧
    (audit_latex_table "").has_label = false ∧
    (audit_latex_table "").has_centering = false ∧
    (audit_latex_table "").uses_full_booktabs = false ∧
    (audit_latex_table "").column_mismatch_rows = [] := by
  refine ⟨fun s => ⟨audit_latex_table s, rfl⟩, ?_, ?_, ?_, ?_, ?_⟩ <;> decide

/-- C3: every report carries as many suggestions as issues, since each check
appends to the two lists in lockstep. -/
theorem audit_issue_suggestion_balance (s : String) :
    (audit_latex_table s).issues.length = (audit_latex_table s).suggestions.length := by
  show (issuesOf s.data).length = (suggestionsOf s.data).length
  unfold issuesOf suggestionsOf
  cases hC : hasCaption s.data <;> cases hL : hasLabel s.data <;>
    cases hCe : hasCentering s.data <;> cases hB : booktabsFull s.data <;>
    cases hE : extract_outer_tabular s.data <;>
    cases hM : (columnMismatchRowsOf s.data).isEmpty <;>
    cases hT : hasTextbf s.data <;>
    simp [hC, hL, hCe, hB, hE, hM, hT]

/-- C4: the spec counter tokenizes the column-type letters occurring inside a
brace-delimited width argument: a single paragraph column of width 2cm is
counted as three columns (p, c, m), not one. -/
theorem count_columns_counts_inside_width_args :
    count_columns_from_spec ("p\x7b2cm\x7d".data) = some 3 ∧
    ¬(count_columns_from_spec ("p\x7b2cm\x7d".data) = some 1) := by
  refine ⟨by decide, by decide⟩

/-- C7: the mismatch list is empty whenever the scaffold flag is set, and
empty whenever the reported expected column count is absent. -/
theorem mismatch_rows_empty_of_scaffold_or_no_expected (s : String) :
    ((audit_latex_table s).needs_tabular_scaffold = true →
      (audit_latex_table s).column_mismatch_rows = []) ∧
    ((audit_latex_table s).expected_columns = none →
      (audit_latex_table s).column_mismatch_rows = []) := by
  constructor
  · intro h
    show columnMismatchRowsOf s.data = []
    have h' : (extract_outer_tabular s.data).isNone = true := h
    unfold columnMismatchRowsOf
    cases hE : extract_outer_tabular s.data with
    | none => rfl
    | some b => rw [hE] at h'; simp at h'
  · intro h
    show columnMismatchRowsOf s.data = []
    have h' : expectedColumnsOf s.data = none := h
    apply mismatchRows_empty_of_not_truthy
    by_cases ht : optTruthy (extractedColsOf s.data) = true
    · unfold expectedColumnsOf at h'
      rw [if_pos ht] at h'
      rw [h'] at ht
      exact absurd ht (by decide)
    · exact Bool.not_eq_true _ ▸ (Bool.eq_false_iff.mpr (fun hx => ht hx))

/-- C7 witness: on the empty string the scaffold flag is set and the theorem
yields the empty mismatch list. -/
theorem mismatch_rows_empty_witness :
    (audit_latex_table "").column_mismatch_rows = [] :=
  (mismatch_rows_empty_of_scaffold_or_no_expected "").1 (by decide)

/-- C8: an escaped separator is not a cell boundary: the row with payload
a, escaped separator, b, separator, c has two cells under two expected
columns and is not flagged. -/
theorem escaped_separator_not_counted :
    (removeEscAmp ("a \\& b & c".data)).count '&' + 1 = 2 ∧
    find_column_mismatches ⟨"ll".data, "a \\& b & c".data⟩ 2 = [] := by
  refine ⟨by decide, by decide⟩

/-- C9: the mismatch list of the row scanner is strictly increasing and all
its entries are positive one-based indices. -/
theorem mismatch_list_strictly_increasing (block : TabularBlock) (expected : Nat) :
    List.Sorted (· < ·) (find_column_mismatches block expected) ∧
    ∀ x ∈ find_column_mismatches block expected, 0 < x := by
  constructor
  · exact findColumnMismatchesAux_sorted expected (rowsOf block.body) 0
  · intro x hx
    exact findColumnMismatchesAux_mem_gt expected (rowsOf block.body) 0 x hx

/-- C9 witness: a concrete body whose single data row has three cells against
two expected columns, flagged at positive index one. -/
theorem mismatch_list_strictly_increasing_witness :
    (1 ∈ find_column_mismatches ⟨"ll".data, "a & b & c".data⟩ 2) ∧ 0 < 1 :=
  ⟨by decide, (mismatch_list_strictly_increasing ⟨"ll".data, "a & b & c".data⟩ 2).2 1 (by decide)⟩

/-- C1 counterexample: the input of two cells separated by one separator
contains none of the markers named by the claim, yet its report carries six
issues (not five) and two placeholder headers (not three): the header check
also appends an issue, and the fallback sizes the placeholders from the
separator count. -/
theorem scenarioA_counterexample :
    listContains ("a & b".data) beginLit = false ∧
    listContains ("a & b".data) capTok = false ∧
    listContains ("a & b".data) labelTok = false ∧
    listContains ("a & b".data) centeringTok = false ∧
    listContains ("a & b".data) topruleTok = false ∧
    listContains ("a & b".data) midruleTok = false ∧
    listContains ("a & b".data) bottomruleTok = false ∧
    listContains ("a & b".data) textbfTok = false ∧
    ¬((audit_latex_table "a & b").issues.length = 5) ∧
    (audit_latex_table "a & b").issues.length = 6 ∧
    ¬((audit_latex_table "a & b").placeholder_headers.length = 3) ∧
    (audit_latex_table "a & b").placeholder_headers.length = 2 := by
  decide

/-- C1 amended: on an input with no table begin marker, no caption, label,
centering, rule or bold marker, and additionally no separator character, the
report has all four presence flags false, the scaffold flag set, three
placeholder headers, and six issues matched by six suggestions. -/
theorem scenarioA_amended (s : String)
    (hbeg : listContains s.data beginLit = false)
    (hcap : listContains s.data capTok = false)
    (hlab : listContains s.data labelTok = false)
    (hcen : listContains s.data centeringTok = false)
    (htop : listContains s.data topruleTok = false)
    (hmid : listContains s.data midruleTok = false)
    (hbot : listContains s.data bottomruleTok = false)
    (hbold : listContains s.data textbfTok = false)
    (hamp : '&' ∉ s.data) :
    (audit_latex_table s).has_caption = false ∧
    (audit_latex_table s).has_label = false ∧
    (audit_latex_table s).has_centering = false ∧
    (audit_latex_table s).uses_full_booktabs = false ∧
    (audit_latex_table s).needs_tabular_scaffold = true ∧
    (audit_latex_table s).placeholder_headers.length = 3 ∧
    (audit_latex_table s).issues.length = 6 ∧
    (audit_latex_table s).suggestions.length = 6 := by
  have hex : extract_outer_tabular s.data = none := extract_eq_none_of_no_begin s.data hbeg
  have hfl : firstAmpLine s.data = none := firstAmpLine_eq_none s.data hamp
  have hec : extractedColsOf s.data = none := by
    unfold extractedColsOf; rw [hex]
  have hinf : inferredColsOf s.data = none := by
    unfold inferredColsOf
    rw [hec, hfl]
    simp [optTruthy, count_columns_in_line]
  have hexp : expectedColumnsOf s.data = none := by
    unfold expectedColumnsOf
    rw [hec, hfl]
    simp [optTruthy, count_columns_in_line]
  refine ⟨hcap, hlab, hcen, ?_, ?_, ?_, ?_, ?_⟩
  · show booktabsFull s.data = false
    simp [booktabsFull, usesToprule, htop]
  · show needsScaffoldOf s.data = true
    unfold needsScaffoldOf
    rw [hex]
    rfl
  · show (placeholderHeadersOf s.data).length = 3
    unfold placeholderHeadersOf
    rw [if_neg (by simp [hasTextbf, hbold])]
    unfold colCountForHeadersOf
    rw [hexp, hinf]
    simp [pyOr]
  · show (issuesOf s.data).length = 6
    unfold issuesOf
    rw [hex]
    simp [hasCaption, hasLabel, hasCentering, hasTextbf, booktabsFull, usesToprule,
      hcap, hlab, hcen, htop, hbold]
  · show (suggestionsOf s.data).length = 6
    unfold suggestionsOf
    rw [hex]
    simp [hasCaption, hasLabel, hasCentering, hasTextbf, booktabsFull, usesToprule,
      hcap, hlab, hcen, htop, hbold]

/-- C1 witness: the amended claim applied to a separator-free marker-free
input. -/
theorem scenarioA_amended_witness :
    (audit_latex_table "hello world").needs_tabular_scaffold = true ∧
    (audit_latex_table "hello world").placeholder_headers.length = 3 ∧
    (audit_latex_table "hello world").issues.length = 6 :=
  have h := scenarioA_amended "hello world" (by decide) (by decide) (by decide) (by decide)
    (by decide) (by decide) (by decide) (by decide) (by decide)
  ⟨h.2.2.2.2.1, h.2.2.2.2.2.1, h.2.2.2.2.2.2.1⟩

/-- C5 counterexample: when the first non-comment line containing a separator
has all its separators escaped, the audit adopts no expected column count at
all (the claim would demand adopting zero unescaped separators plus one). -/
theorem fallback_all_escaped_counterexample :
    extractedColsOf ("a \\& b".data) = none ∧
    firstAmpLine ("a \\& b".data) = some ("a \\& b".data) ∧
    (removeEscAmp ("a \\& b".data)).count '&' = 0 ∧
    (audit_latex_table "a \\& b").expected_columns = none ∧
    ¬((audit_latex_table "a \\& b").expected_columns = some 1) := by
  decide

/-- C5 amended: when extraction resolves no count, the reported expected
column count is the unescaped-separator count of the first non-comment line
containing a separator, plus one — when that line has at least one unescaped
separator; when it has none, or no such line exists, no count is adopted. -/
theorem fallback_adopts_unescaped_count (s : String)
    (h : extractedColsOf s.data = none) :
    (audit_latex_table s).expected_columns =
      (match firstAmpLine s.data with
       | none => none
       | some line =>
          if (removeEscAmp line).count '&' = 0 then none
          else some ((removeEscAmp line).count '&' + 1)) := by
  show expectedColumnsOf s.data = _
  unfold expectedColumnsOf
  rw [h]
  simp only [optTruthy, Bool.false_eq_true, if_false]
  cases hf : firstAmpLine s.data with
  | none => simp [count_columns_in_line]
  | some line =>
    have hp : (line.contains '&' && !(startsWithChar (pyStrip line) '%')) = true := by
      have := List.find?_some (p := fun ln => ln.contains '&' && !(startsWithChar (pyStrip ln) '%'))
        (by unfold firstAmpLine at hf; exact hf)
      exact this
    have hmemb : '&' ∈ line := by
      have hc : line.contains '&' = true := by
        cases hcc : line.contains '&'
        · rw [hcc] at hp; simp at hp
        · rfl
      simpa using hc
    have hne : line.isEmpty = false := by
      cases line with
      | nil => simp at hmemb
      | cons x t => rfl
    by_cases h0 : (removeEscAmp line).count '&' = 0
    · simp [count_columns_in_line, hne, h0]
    · simp [count_columns_in_line, hne, h0]

/-- C5 witness: the amended fallback on a text with one unescaped separator
adopts two columns. -/
theorem fallback_adopts_unescaped_count_witness :
    (audit_latex_table "x & y").expected_columns = some 2 :=
  (fallback_adopts_unescaped_count "x & y" (by decide)).trans (by decide)

/-- C10: the placeholder headers are non-empty exactly when the bold marker
is absent; in that case they are the generic labels Column 1 .. Column k for
k the maximum of one and the expected (or inferred, or default three) column
count, and when the bold marker is present they are empty. -/
theorem placeholder_headers_shape (s : String) :
    (¬((audit_latex_table s).placeholder_headers = []) ↔ hasTextbf s.data = false) ∧
    (hasTextbf s.data = false →
      (audit_latex_table s).placeholder_headers =
        (List.range (max 1 (pyOr (audit_latex_table s).expected_columns
            (pyOr (inferredColsOf s.data) 3)))).map
          (fun i => "Column " ++ toString (i + 1))) ∧
    (hasTextbf s.data = true → (audit_latex_table s).placeholder_headers = []) := by
  by_cases hb : hasTextbf s.data = true
  · have he : placeholderHeadersOf s.data = [] := by
      unfold placeholderHeadersOf
      rw [if_pos hb]
    refine ⟨?_, ?_, fun _ => he⟩
    · show ¬(placeholderHeadersOf s.data = []) ↔ _
      rw [he, hb]
      simp
    · intro hcontra
      rw [hb] at hcontra
      simp at hcontra
  · have hbf : hasTextbf s.data = false := by
      cases hx : hasTextbf s.data
      · rfl
      · exact absurd hx hb
    have he : placeholderHeadersOf s.data =
        (List.range (max 1 (colCountForHeadersOf s.data))).map
          (fun i => "Column " ++ toString (i + 1)) := by
      unfold placeholderHeadersOf
      rw [if_neg hb]
    refine ⟨?_, fun _ => he, ?_⟩
    · show ¬(placeholderHeadersOf s.data = []) ↔ _
      rw [he, hbf]
      simp only [iff_true]
      intro hnil
      have hlen := congrArg List.length hnil
      simp only [List.length_map, List.length_range, List.length_nil] at hlen
      omega
    · intro hcontra
      rw [hcontra] at hbf
      simp at hbf

/-- C10 witness: on the empty input the bold marker is absent and the
placeholders are the three default labels. -/
theorem placeholder_headers_shape_witness :
    (audit_latex_table "").placeholder_headers = ["Column 1", "Column 2", "Column 3"] :=
  ((placeholder_headers_shape "").2.1 (by decide)).trans (by decide)

/-! Lemmas for the nesting-aware extraction claim. -/

/-- A list is a Boolean prefix of itself followed by anything. -/
lemma isPrefixOf_append_self : ∀ (l r : List Char), l.isPrefixOf (l ++ r) = true := by
  intro l
  induction l with
  | nil => intro r; simp [List.isPrefixOf]
  | cons ch t ih =>
    intro r
    simp [List.cons_append, List.isPrefixOf, ih r]

/-- The begin literal is not a prefix of the end literal followed by
anything (they differ at their second character). -/
lemma beginLit_not_prefixOf_endLit (r : List Char) :
    beginLit.isPrefixOf (endLit ++ r) = false := rfl

/-- One begin-marker step of the token scan. -/
lemma tokenScanAux_begin_step (fuel : Nat) (r : List Char) (pos : Nat) (depth : Int) :
    tokenScanAux (fuel + 1) (beginLit ++ r) pos depth =
      tokenScanAux fuel r (pos + beginLit.length) (depth + 1) := by
  simp [tokenScanAux, isPrefixOf_append_self, List.drop_left]

/-- One end-marker step of the token scan. -/
lemma tokenScanAux_end_step (fuel : Nat) (r : List Char) (pos : Nat) (depth : Int) :
    tokenScanAux (fuel + 1) (endLit ++ r) pos depth =
      (if depth - 1 = 0 then some pos
       else tokenScanAux fuel r (pos + endLit.length) (depth - 1)) := by
  simp [tokenScanAux, beginLit_not_prefixOf_endLit, isPrefixOf_append_self, List.drop_left]

/-- The token scan steps one character at a time over a stretch inside which
no marker token occurrence starts. -/
lemma tokenScanAux_skip_tokens :
    ∀ (u : List Char) (fuel : Nat) (r : List Char) (pos : Nat) (depth : Int),
      noTokenInside u r →
      tokenScanAux (u.length + fuel) (u ++ r) pos depth =
        tokenScanAux fuel r (pos + u.length) depth := by
  intro u
  induction u with
  | nil => intro fuel r pos depth _; simp
  | cons ch t ih =>
    intro fuel r pos depth h
    have h0 := h 0 (by simp)
    simp only [List.drop_zero, List.cons_append] at h0
    have hlen : (ch :: t).length + fuel = (t.length + fuel) + 1 := by
      simp [List.length_cons]
      omega
    rw [List.cons_append, hlen]
    simp only [tokenScanAux, h0.1, h0.2, Bool.false_eq_true, if_false]
    have ht : noTokenInside t r := by
      intro i hi
      have hx := h (i + 1) (by simp [List.length_cons]; omega)
      simpa [List.drop_succ_cons] using hx
    rw [ih fuel r (pos + 1) depth ht]
    congr 1
    simp [List.length_cons]
    omega

/-- More fuel never changes a completed token scan. -/
lemma tokenScanAux_mono :
    ∀ (fuel k : Nat) (l : List Char) (pos : Nat) (depth : Int) (x : Nat),
      tokenScanAux fuel l pos depth = some x →
      tokenScanAux (fuel + k) l pos depth = some x := by
  intro fuel
  induction fuel with
  | zero =>
    intro k l pos depth x h
    exact absurd h (by simp [tokenScanAux])
  | succ f ih =>
    intro k l pos depth x h
    have hfk : f + 1 + k = (f + k) + 1 := by omega
    rw [hfk]
    by_cases hb : beginLit.isPrefixOf l = true
    · simp only [tokenScanAux, hb, if_true] at h ⊢
      exact ih k _ _ _ _ h
    · by_cases hen : endLit.isPrefixOf l = true
      · simp only [tokenScanAux, hb, hen, Bool.false_eq_true, if_false, if_true] at h ⊢
        by_cases hd : depth - 1 = 0
        · rw [if_pos hd] at h ⊢
          exact h
        · rw [if_neg hd] at h ⊢
          exact ih k _ _ _ _ h
      · cases l with
        | nil =>
          simp only [tokenScanAux, List.isPrefixOf, Bool.false_eq_true, if_false] at h
          exact Option.noConfusion h
        | cons ch t =>
          simp only [tokenScanAux, hb, hen, Bool.false_eq_true, if_false] at h ⊢
          exact ih k _ _ _ _ h

/-- Capturing up to the first right brace over a brace-free payload. -/
lemma takeToRBrace_append (spec r : List Char) (h : rbrace ∉ spec) :
    takeToRBrace (spec ++ rbrace :: r) = some (spec, r) := by
  induction spec with
  | nil =>
    simp [takeToRBrace]
  | cons ch t ih =>
    have hch : ¬ch = rbrace := fun he => h (by simp [he])
    simp only [List.cons_append, takeToRBrace, List.append_eq]
    rw [if_neg hch, ih (fun hx => h (List.mem_cons_of_mem _ hx))]

/-- The greedy bracket group consumes exactly through the first right
bracket of a bracket-free payload. -/
lemma afterFirstRBracket_append (br r : List Char) (h : ']' ∉ br) :
    afterFirstRBracket (br ++ ']' :: r) = some r := by
  induction br with
  | nil => simp [afterFirstRBracket]
  | cons ch t ih =>
    have hch : ¬ch = ']' := fun he => h (by simp [he])
    simp only [List.cons_append, afterFirstRBracket]
    rw [if_neg hch]
    exact ih (fun hx => h (List.mem_cons_of_mem _ hx))

/-- The begin-regex suffix with no placement argument: a braced brace-free
spec parses to the capture and the remainder. -/
lemma parseBeginSuffix_plain (spec r : List Char) (hspec : rbrace ∉ spec) :
    parseBeginSuffix (lbrace :: (spec ++ rbrace :: r)) = some (spec, r) := by
  simp only [parseBeginSuffix]
  simpa using takeToRBrace_append spec r hspec

/-- The begin-regex suffix with a bracketed placement argument before the
braced spec. -/
lemma parseBeginSuffix_bracket (br spec r : List Char) (hbr : ']' ∉ br)
    (hspec : rbrace ∉ spec) :
    parseBeginSuffix (('[' :: (br ++ [']'])) ++ (lbrace :: (spec ++ rbrace :: r))) =
      some (spec, r) := by
  have heq : ('[' :: (br ++ [']'])) ++ (lbrace :: (spec ++ rbrace :: r))
      = '[' :: (br ++ ']' :: (lbrace :: (spec ++ rbrace :: r))) := by
    simp [List.cons_append, List.append_assoc]
  rw [heq]
  simp only [parseBeginSuffix]
  simp [afterFirstRBracket_append br _ hbr, takeToRBrace_append spec r hspec]

/-- The begin search succeeds immediately at a begin marker whose suffix the
argument parser accepts, with the match end determined by the parse
remainder. -/
lemma searchTabularBeginAux_immediate_of_parse (fuel : Nat) (tail spec rem : List Char)
    (pos : Nat) (hparse : parseBeginSuffix tail = some (spec, rem)) :
    searchTabularBeginAux (fuel + 1) (beginLit ++ tail) pos =
      some (pos, spec, pos + ((beginLit ++ tail).length - rem.length)) := by
  have hpre := isPrefixOf_append_self beginLit tail
  have hdrop : (beginLit ++ tail).drop beginLit.length = tail := List.drop_left _ _
  simp only [searchTabularBeginAux, hpre, if_true, hdrop, hparse]

/-- The begin search steps one character at a time over a stretch inside
which no begin-literal occurrence starts. -/
lemma searchTabularBeginAux_skip :
    ∀ (p : List Char) (fuel : Nat) (r : List Char) (pos : Nat),
      noBeginInside p r →
      searchTabularBeginAux (p.length + fuel) (p ++ r) pos =
        searchTabularBeginAux fuel r (pos + p.length) := by
  intro p
  induction p with
  | nil => intro fuel r pos _; simp
  | cons ch t ih =>
    intro fuel r pos h
    have h0 := h 0 (by simp)
    simp only [List.drop_zero, List.cons_append] at h0
    have hlen : (ch :: t).length + fuel = (t.length + fuel) + 1 := by
      simp [List.length_cons]
      omega
    rw [List.cons_append, hlen]
    simp only [searchTabularBeginAux, h0, Bool.false_eq_true, if_false]
    have ht : noBeginInside t r := by
      intro i hi
      have hx := h (i + 1) (by simp [List.length_cons]; omega)
      simpa [List.drop_succ_cons] using hx
    rw [ih fuel r (pos + 1) ht]
    congr 1
    simp [List.length_cons]
    omega

/-- C6: first, for any document built from an arbitrary prefix inside which
no begin-marker occurrence starts, a begin marker with an optional bracketed
placement argument and a braced brace-free column spec, and filler segments
inside which no begin or end marker occurrence starts (they may contain
backslashes, e.g. row terminators), the region holds exactly one nested
begin/end pair before its true closing marker, and extraction returns the
column spec together with the body running from just after the braced spec to
the start of the outer (second) end marker, nested pair intact; second,
whenever the depth scan finds no closing marker, extraction returns nothing. -/
theorem extraction_nesting_and_unclosed :
    (∀ pre opt spec a b c post : List Char,
      (opt = [] ∨ ∃ br, ']' ∉ br ∧ opt = '[' :: (br ++ [']'])) →
      rbrace ∉ spec →
      noBeginInside pre (beginLit ++ (opt ++ lbrace :: (spec ++ rbrace :: (a ++ (beginLit ++ (b ++ (endLit ++ (c ++ (endLit ++ post))))))))) →
      noTokenInside (opt ++ (lbrace :: (spec ++ rbrace :: a))) (beginLit ++ (b ++ (endLit ++ (c ++ (endLit ++ post))))) →
      noTokenInside b (endLit ++ (c ++ (endLit ++ post))) →
      noTokenInside c (endLit ++ post) →
      extract_outer_tabular
          (pre ++ (beginLit ++ (opt ++ lbrace :: (spec ++ rbrace :: (a ++ (beginLit ++ (b ++ (endLit ++ (c ++ (endLit ++ post)))))))))) =
        some ⟨spec, a ++ (beginLit ++ (b ++ (endLit ++ c)))⟩) ∧
    (∀ (s : List Char) (mstart : Nat) (spec : List Char) (mend : Nat),
      searchTabularBeginAux s.length s 0 = some (mstart, spec, mend) →
      tokenScanAux (s.length - mstart) (s.drop mstart) mstart 0 = none →
      extract_outer_tabular s = none) := by
  constructor
  · intro pre opt spec a b c post hopt hspec hpre htok1 htok2 htok3
    have hbl : beginLit.length = 15 := rfl
    have hel : endLit.length = 13 := rfl
    have hparse : parseBeginSuffix
        (opt ++ lbrace :: (spec ++ rbrace :: (a ++ (beginLit ++ (b ++ (endLit ++ (c ++ (endLit ++ post)))))))) =
        some (spec, a ++ (beginLit ++ (b ++ (endLit ++ (c ++ (endLit ++ post)))))) := by
      rcases hopt with h | ⟨br, hbr, h⟩
      · subst h
        simpa using parseBeginSuffix_plain spec _ hspec
      · subst h
        exact parseBeginSuffix_bracket br spec _ hbr hspec
    have h1 := searchTabularBeginAux_immediate_of_parse
      ((beginLit ++ (opt ++ lbrace :: (spec ++ rbrace :: (a ++ (beginLit ++ (b ++ (endLit ++ (c ++ (endLit ++ post))))))))).length - 1)
      (opt ++ lbrace :: (spec ++ rbrace :: (a ++ (beginLit ++ (b ++ (endLit ++ (c ++ (endLit ++ post))))))))
      spec
      (a ++ (beginLit ++ (b ++ (endLit ++ (c ++ (endLit ++ post))))))
      (0 + pre.length) hparse
    rw [show ((beginLit ++ (opt ++ lbrace :: (spec ++ rbrace :: (a ++ (beginLit ++ (b ++ (endLit ++ (c ++ (endLit ++ post))))))))).length - 1) + 1
        = (beginLit ++ (opt ++ lbrace :: (spec ++ rbrace :: (a ++ (beginLit ++ (b ++ (endLit ++ (c ++ (endLit ++ post))))))))).length from by
      simp [List.length_append, List.length_cons, hbl]
      omega] at h1
    have hsearch : searchTabularBeginAux
        ((pre ++ (beginLit ++ (opt ++ lbrace :: (spec ++ rbrace :: (a ++ (beginLit ++ (b ++ (endLit ++ (c ++ (endLit ++ post)))))))))).length)
        (pre ++ (beginLit ++ (opt ++ lbrace :: (spec ++ rbrace :: (a ++ (beginLit ++ (b ++ (endLit ++ (c ++ (endLit ++ post)))))))))) 0 =
        some (pre.length, spec,
          pre.length + ((beginLit ++ (opt ++ lbrace :: (spec ++ rbrace :: (a ++ (beginLit ++ (b ++ (endLit ++ (c ++ (endLit ++ post))))))))).length
            - (a ++ (beginLit ++ (b ++ (endLit ++ (c ++ (endLit ++ post)))))).length)) := by
      rw [show (pre ++ (beginLit ++ (opt ++ lbrace :: (spec ++ rbrace :: (a ++ (beginLit ++ (b ++ (endLit ++ (c ++ (endLit ++ post)))))))))).length
          = pre.length + (beginLit ++ (opt ++ lbrace :: (spec ++ rbrace :: (a ++ (beginLit ++ (b ++ (endLit ++ (c ++ (endLit ++ post))))))))).length
          from List.length_append _ _]
      rw [searchTabularBeginAux_skip pre _ _ 0 hpre]
      rw [h1]
      simp only [Nat.zero_add]
    have htrace : tokenScanAux
        (((opt ++ (lbrace :: (spec ++ rbrace :: a))).length + ((b.length + ((c.length + (0 + 1)) + 1)) + 1)) + 1)
        (beginLit ++ (opt ++ lbrace :: (spec ++ rbrace :: (a ++ (beginLit ++ (b ++ (endLit ++ (c ++ (endLit ++ post)))))))))
        pre.length 0 =
        some (pre.length + beginLit.length + (opt ++ (lbrace :: (spec ++ rbrace :: a))).length + beginLit.length
          + b.length + endLit.length + c.length) := by
      rw [tokenScanAux_begin_step,
        show opt ++ lbrace :: (spec ++ rbrace :: (a ++ (beginLit ++ (b ++ (endLit ++ (c ++ (endLit ++ post)))))))
            = (opt ++ (lbrace :: (spec ++ rbrace :: a))) ++ (beginLit ++ (b ++ (endLit ++ (c ++ (endLit ++ post))))) from by
          simp [List.cons_append, List.append_assoc],
        tokenScanAux_skip_tokens (opt ++ (lbrace :: (spec ++ rbrace :: a))) _ _ _ _ htok1,
        tokenScanAux_begin_step,
        tokenScanAux_skip_tokens b _ _ _ _ htok2,
        tokenScanAux_end_step,
        if_neg (by decide : ¬((0 : Int) + 1 + 1 - 1 = 0)),
        tokenScanAux_skip_tokens c _ _ _ _ htok3,
        tokenScanAux_end_step,
        if_pos (by decide : ((0 : Int) + 1 + 1 - 1 - 1 = 0))]
    have hk : (beginLit ++ (opt ++ lbrace :: (spec ++ rbrace :: (a ++ (beginLit ++ (b ++ (endLit ++ (c ++ (endLit ++ post))))))))).length
        = (((opt ++ (lbrace :: (spec ++ rbrace :: a))).length + ((b.length + ((c.length + (0 + 1)) + 1)) + 1)) + 1) + (post.length + 52) := by
      simp [List.length_append, List.length_cons, hbl, hel]
      omega
    have htoken : tokenScanAux
        ((beginLit ++ (opt ++ lbrace :: (spec ++ rbrace :: (a ++ (beginLit ++ (b ++ (endLit ++ (c ++ (endLit ++ post))))))))).length)
        (beginLit ++ (opt ++ lbrace :: (spec ++ rbrace :: (a ++ (beginLit ++ (b ++ (endLit ++ (c ++ (endLit ++ post)))))))))
        pre.length 0 =
        some (pre.length + beginLit.length + (opt ++ (lbrace :: (spec ++ rbrace :: a))).length + beginLit.length
          + b.length + endLit.length + c.length) := by
      rw [hk]
      exact tokenScanAux_mono _ _ _ _ _ _ htrace
    have htoken2 : tokenScanAux
        ((pre ++ (beginLit ++ (opt ++ lbrace :: (spec ++ rbrace :: (a ++ (beginLit ++ (b ++ (endLit ++ (c ++ (endLit ++ post)))))))))).length - pre.length)
        ((pre ++ (beginLit ++ (opt ++ lbrace :: (spec ++ rbrace :: (a ++ (beginLit ++ (b ++ (endLit ++ (c ++ (endLit ++ post)))))))))).drop pre.length)
        pre.length 0 =
        some (pre.length + beginLit.length + (opt ++ (lbrace :: (spec ++ rbrace :: a))).length + beginLit.length
          + b.length + endLit.length + c.length) := by
      rw [show (pre ++ (beginLit ++ (opt ++ lbrace :: (spec ++ rbrace :: (a ++ (beginLit ++ (b ++ (endLit ++ (c ++ (endLit ++ post)))))))))).length - pre.length
          = (beginLit ++ (opt ++ lbrace :: (spec ++ rbrace :: (a ++ (beginLit ++ (b ++ (endLit ++ (c ++ (endLit ++ post))))))))).length from by
        simp [List.length_append]
        try omega]
      rw [List.drop_left]
      exact htoken
    have hbody : ((pre ++ (beginLit ++ (opt ++ lbrace :: (spec ++ rbrace :: (a ++ (beginLit ++ (b ++ (endLit ++ (c ++ (endLit ++ post)))))))))).drop
          (pre.length + ((beginLit ++ (opt ++ lbrace :: (spec ++ rbrace :: (a ++ (beginLit ++ (b ++ (endLit ++ (c ++ (endLit ++ post))))))))).length
            - (a ++ (beginLit ++ (b ++ (endLit ++ (c ++ (endLit ++ post)))))).length))).take
          ((pre.length + beginLit.length + (opt ++ (lbrace :: (spec ++ rbrace :: a))).length + beginLit.length
            + b.length + endLit.length + c.length)
           - (pre.length + ((beginLit ++ (opt ++ lbrace :: (spec ++ rbrace :: (a ++ (beginLit ++ (b ++ (endLit ++ (c ++ (endLit ++ post))))))))).length
              - (a ++ (beginLit ++ (b ++ (endLit ++ (c ++ (endLit ++ post)))))).length)))
        = a ++ (beginLit ++ (b ++ (endLit ++ c))) := by
      rw [show pre ++ (beginLit ++ (opt ++ lbrace :: (spec ++ rbrace :: (a ++ (beginLit ++ (b ++ (endLit ++ (c ++ (endLit ++ post)))))))))
          = (pre ++ (beginLit ++ (opt ++ (lbrace :: (spec ++ [rbrace]))))) ++ ((a ++ (beginLit ++ (b ++ (endLit ++ c)))) ++ (endLit ++ post)) from by
        simp [List.cons_append, List.append_assoc]]
      rw [show (pre.length + ((beginLit ++ (opt ++ lbrace :: (spec ++ rbrace :: (a ++ (beginLit ++ (b ++ (endLit ++ (c ++ (endLit ++ post))))))))).length
            - (a ++ (beginLit ++ (b ++ (endLit ++ (c ++ (endLit ++ post)))))).length))
          = (pre ++ (beginLit ++ (opt ++ (lbrace :: (spec ++ [rbrace]))))).length from by
        simp [List.length_append, List.length_cons]
        omega]
      rw [List.drop_left]
      rw [show ((pre.length + beginLit.length + (opt ++ (lbrace :: (spec ++ rbrace :: a))).length + beginLit.length
            + b.length + endLit.length + c.length)
           - (pre ++ (beginLit ++ (opt ++ (lbrace :: (spec ++ [rbrace]))))).length)
          = (a ++ (beginLit ++ (b ++ (endLit ++ c)))).length from by
        simp [List.length_append, List.length_cons]
        omega]
      rw [List.take_left]
    unfold extract_outer_tabular
    simp only [hsearch, htoken2, hbody]
  · intro s mstart spec mend hsearch htoken
    unfold extract_outer_tabular
    simp only [hsearch, htoken]

/-- C6 witness: a concrete document with text before the marker, a bracketed
placement argument, and filler segments containing row terminators is
extracted with the nested pair intact in the body. -/
theorem extraction_nesting_witness :
    extract_outer_tabular
        ("A small document. ".data ++ (beginLit ++ (('[' :: ("ht".data ++ [']'])) ++ lbrace :: ("|l|c|".data ++ rbrace :: ("\n".data ++ (beginLit ++ (" 1 & 2 \\\\ 3 & 4 ".data ++ (endLit ++ (" \\\\ tail ".data ++ (endLit ++ " rest".data)))))))))) =
      some ⟨"|l|c|".data, "\n".data ++ (beginLit ++ (" 1 & 2 \\\\ 3 & 4 ".data ++ (endLit ++ " \\\\ tail ".data)))⟩ :=
  extraction_nesting_and_unclosed.1 "A small document. ".data ('[' :: ("ht".data ++ [']']))
    "|l|c|".data "\n".data " 1 & 2 \\\\ 3 & 4 ".data " \\\\ tail ".data " rest".data
    (Or.inr ⟨"ht".data, by decide, rfl⟩) (by decide) (by decide) (by decide) (by decide) (by decide)

end Auditor
